import Mathlib

/-!
Shallow embedding of `main.py` of vol_watcher_backend: the ingestion loop
(`main`), the alert evaluation engine (`evaluate_alerts`) and the mail helper
(`send_alert_email`).  Prices and thresholds are modelled as rationals (the
source uses Python floats; only the order comparison `>=` matters to the
engine).  The external collaborators (yfinance, Supabase, SMTP) are modelled
as environment records supplying, per symbol or per rule, the outcome the
collaborator would report; exceptions raised by collaborators and `KeyError`s
of dictionary access are modelled with `Except`.
-/

namespace VolWatcher

/-- One row of the `alert_rules` table as `evaluate_alerts` sees it: a Python
dict, so every key may be absent (`none`).  `rule["id"]`, `rule["symbol_code"]`,
`rule["direction"]`, `rule["threshold"]`, `rule["email"]` are plain subscript
accesses (KeyError when absent); `severity` and `last_result` are read with
`.get` (no KeyError). -/
structure RuleRow where
  id : Option Nat
  symbol_code : Option String
  direction : Option String
  threshold : Option Rat
  severity : Option String
  email : Option String
  enabled : Option Bool
  last_result : Option Bool
  last_triggered_at : Option Nat
deriving DecidableEq, Repr

/-- The dict `update_fields` built by `evaluate_alerts`: always carries
`last_result`; carries `last_triggered_at` only when the mail was sent. -/
structure UpdateFields where
  last_result : Bool
  last_triggered_at : Option Nat
deriving DecidableEq, Repr

/-- What happened to one rule in one pass of `evaluate_alerts`:
either one of the two `continue` paths, or the full evaluation, recording
the computed `now_result`, whether/with which result `send_alert_email`
was called (`sent = some b`), the `update_fields` dict, and whether the
`supabase.table(...).update(...)` call succeeded (its exception is caught). -/
inductive RuleOutcome where
  | skippedNoPrice
  | skippedUnsupportedDirection
  | evaluated (now_result : Bool) (sent : Option Bool) (fields : UpdateFields)
      (updateOk : Bool)
deriving DecidableEq, Repr

/-- `send_alert_email(...)` was invoked for this rule in this pass. -/
def RuleOutcome.notified : RuleOutcome → Bool
  | .evaluated _ (some _) _ _ => true
  | _ => false

/-- The `RuleStore` update call was issued for this rule in this pass. -/
def RuleOutcome.updateAttempted : RuleOutcome → Bool
  | .evaluated _ _ _ _ => true
  | _ => false

/-- The rule reached step 3 of the algorithm (price present, direction
supported); `now_result` of that evaluation, `false` on the skip paths. -/
def RuleOutcome.nowResultD : RuleOutcome → Bool
  | .evaluated b _ _ _ => b
  | _ => false

def RuleOutcome.isEvaluated : RuleOutcome → Bool
  | .evaluated _ _ _ _ => true
  | _ => false

/-- `latest_close.get(symbol)` on the in-memory price map, modelled as an
association list (first binding wins, as keys are unique in the loop). -/
def lookupClose : List (String × Rat) → String → Option Rat
  | [], _ => none
  | (k, v) :: rest, s => if k = s then some v else lookupClose rest s

/-- Outcomes the external collaborators report to the evaluation engine,
keyed by rule id: whether `send_alert_email` returns `True` for this rule,
whether the rule-row update succeeds (otherwise it raises, caught in the
loop), and the current UTC clock reading (an abstract tick). -/
structure Env where
  sendResult : Nat → Bool
  updateOk : Nat → Bool
  now : Nat

/-- The body of the `for rule in rules` loop of `evaluate_alerts`
(src/main.py lines 180-238), for one rule.  Dictionary key accesses happen
first, in source order (`id`, `symbol_code`, `direction`, `threshold`,
`severity` via `.get`, `email`, `last_result` via `.get`); a missing key
raises KeyError (`Except.error`).  Then: price lookup (skip when absent),
direction check (skip when not `">="`), `now_result = price >= threshold`,
`prev_result = bool(last_result) if last_result is not None else False`,
mail on the rising edge only, `update_fields` always carrying `last_result`
and carrying `last_triggered_at` iff the send reported success.
`evalStep` is the part after the two skip checks (src/main.py lines
196-238): `now_result = price >= threshold`,
`prev_result = bool(last_result) if last_result is not None else False`,
`send_alert_email` called exactly when `now_result and not prev_result`,
`update_fields` built, and the update issued (exception caught). -/
def evalStep (env : Env) (rule_id : Nat) (threshold price : Rat)
    (last_result : Option Bool) : RuleOutcome :=
  let now_result : Bool := decide (threshold ≤ price)
  let prev_result : Bool := last_result.getD false
  let sent : Option Bool :=
    if now_result && !prev_result then some (env.sendResult rule_id) else none
  let fields : UpdateFields :=
    { last_result := now_result
      last_triggered_at := if sent = some true then some env.now else none }
  .evaluated now_result sent fields (env.updateOk rule_id)

def evalRuleRow (env : Env) (m : List (String × Rat)) (row : RuleRow) :
    Except String RuleOutcome :=
  match row.id with
  | none => .error "KeyError: id"
  | some rule_id =>
  match row.symbol_code with
  | none => .error "KeyError: symbol_code"
  | some symbol =>
  match row.direction with
  | none => .error "KeyError: direction"
  | some direction =>
  match row.threshold with
  | none => .error "KeyError: threshold"
  | some threshold =>
  match row.email with
  | none => .error "KeyError: email"
  | some _email =>
  let last_result := row.last_result
  match lookupClose m symbol with
  | none => .ok .skippedNoPrice
  | some price =>
  if direction = ">=" then
    .ok (evalStep env rule_id threshold price last_result)
  else
    .ok .skippedUnsupportedDirection

/-- The durable effect of one rule's pass on its `alert_rules` row: when the
update call succeeded, the fields of `update_fields` overwrite the row
(a field absent from the dict is untouched); on both skip paths, and when
the update call raised, the row is unchanged. -/
def applyOutcome (row : RuleRow) (o : RuleOutcome) : RuleRow :=
  match o with
  | .evaluated _ _ fields true =>
      { row with
        last_result := some fields.last_result
        last_triggered_at :=
          match fields.last_triggered_at with
          | some t => some t
          | none => row.last_triggered_at }
  | _ => row

/-- `evaluate_alerts` over the loaded rule list: each rule is processed in
order; a KeyError in the loop body is uncaught and propagates, ending the
pass; the update call's exception is caught inside `evalRuleRow`, so the
loop continues past update failures. -/
def evaluate_alerts (env : Env) (m : List (String × Rat)) :
    List RuleRow → Except String (List RuleOutcome)
  | [] => .ok []
  | row :: rest =>
    match evalRuleRow env m row with
    | .error e => .error e
    | .ok o =>
      match evaluate_alerts env m rest with
      | .error e => .error e
      | .ok os => .ok (o :: os)

/-- One OHLC observation as `fetch_latest_ohlc` returns it (the `symbol`
key is the loop's logical name, added separately). -/
structure Ohlc where
  dateStr : String
  openV : Rat
  highV : Rat
  lowV : Rat
  closeV : Rat
deriving DecidableEq, Repr

/-- Result of `fetch_latest_ohlc` for one symbol: the observation, or the
RuntimeError raised when yfinance returns no history (any fetch exception
lands in the same `except` branch of `main`). -/
inductive FetchResult where
  | ok (o : Ohlc)
  | sourceUnavailable
deriving DecidableEq, Repr

/-- Collaborator outcomes for the ingestion loop in `main`: what the fetch
of each yfinance symbol returns, and whether `upsert_ohlc` succeeds for each
logical name (`false` models a raised StoreError). -/
structure IngestEnv where
  fetch : String → FetchResult
  upsertOk : String → Bool

/-- Observable event of the ingestion loop, per symbol processed. -/
inductive IngestEvent where
  | fetchFailed (name : String)
  | upserted (name : String) (o : Ohlc)
deriving DecidableEq, Repr

/-- The `for logical_name, yf_symbol in INDEX_TICKERS.items()` loop of
`main` (src/main.py lines 250-266).  Only `fetch_latest_ohlc` is inside the
`try`; a fetch failure is logged and the loop continues with no map entry.
`upsert_ohlc` is outside the `try`: its exception propagates out of `main`
(`Except.error`), discarding the pass.  On success the close is recorded in
`latest_close`. -/
def ingest_loop (env : IngestEnv) :
    List (String × String) → Except String (List IngestEvent × List (String × Rat))
  | [] => .ok ([], [])
  | (name, yfSym) :: rest =>
    match env.fetch yfSym with
    | .sourceUnavailable =>
      match ingest_loop env rest with
      | .ok (evs, m) => .ok (.fetchFailed name :: evs, m)
      | .error e => .error e
    | .ok ohlc =>
      if env.upsertOk name then
        match ingest_loop env rest with
        | .ok (evs, m) => .ok (.upserted name ohlc :: evs, (name, ohlc.closeV) :: m)
        | .error e => .error e
      else .error name

/-- The configured ticker table `INDEX_TICKERS`. -/
def INDEX_TICKERS : List (String × String) :=
  [("VIX", "^VIX"), ("NIKKEI_VI", "^NKVI.OS")]

/-- One whole run of `main` over a symbol table and the loaded enabled
rules: ingestion, then `evaluate_alerts` on the accumulated close map.
An uncaught exception in either phase aborts the run. -/
def full_pass (ienv : IngestEnv) (aenv : Env) (syms : List (String × String))
    (rows : List RuleRow) : Except String (List IngestEvent × List RuleOutcome) :=
  match ingest_loop ienv syms with
  | .error e => .error e
  | .ok (evs, m) =>
    match evaluate_alerts aenv m rows with
    | .error e => .error e
    | .ok os => .ok (evs, os)

/-- Environment of one evaluation pass for a single rule, for reasoning
across runs: the close price the ingestion produced for the rule's symbol,
and the collaborator outcomes of this pass. -/
structure PassEnv where
  price : Rat
  sendOk : Bool
  updateOk : Bool
  now : Nat
deriving DecidableEq, Repr

/-- Repeated invocations of the engine on one rule: each pass evaluates the
rule against that pass's price map and persists via `applyOutcome`, exactly
as consecutive runs of `main` would (all continuity is the stored row).
Returns the final stored row and, per pass, whether a notification was
sent (`RuleOutcome.notified`). -/
def runPasses (row : RuleRow) : List PassEnv → RuleRow × List Bool
  | [] => (row, [])
  | pe :: rest =>
    let env : Env := ⟨fun _ => pe.sendOk, fun _ => pe.updateOk, pe.now⟩
    let m : List (String × Rat) :=
      match row.symbol_code with
      | some s => [(s, pe.price)]
      | none => []
    match evalRuleRow env m row with
    | .error _ => (row, [])
    | .ok o =>
      let next := runPasses (applyOutcome row o) rest
      (next.1, o.notified :: next.2)

/-- The rising-edge sequence of a boolean trace, given the previous value:
`(edges prev cs).get i = cs.get i && !(previous element, prev at 0)`. -/
def edges (prev : Bool) : List Bool → List Bool
  | [] => []
  | c :: cs => (c && !prev) :: edges c cs

/-- Python truthiness of an optional string: `None` and `""` are falsy. -/
def falsyStr : Option String → Bool
  | none => true
  | some s => s = ""

/-- Python `a or b` on optional strings. -/
def orStr (a b : Option String) : Option String :=
  if falsyStr a then b else a

/-- The SMTP settings `send_alert_email` reads from the environment, and
whether the transport block (`smtplib.SMTP ... send_message`) would succeed
were it reached. -/
structure SmtpEnv where
  smtpUser : Option String
  smtpPass : Option String
  fromEmail : Option String
  transportOk : Bool

/-- `send_alert_email` (src/main.py lines 114-148): with
`from_email = FROM_EMAIL or user`, if any of user / password / from_email
is falsy it logs and returns `False` without touching the transport;
otherwise it attempts the transport, catching any exception into `False`.
Returns (result, transport attempted). -/
def send_alert_email (env : SmtpEnv) (_to _subject _body : String) : Bool × Bool :=
  let user := env.smtpUser
  let password := env.smtpPass
  let from_email := orStr env.fromEmail user
  if falsyStr user || falsyStr password || falsyStr from_email then
    (false, false)
  else
    (env.transportOk, true)

/-!  Theorems for the claims.  -/

/-- C1: for an enabled rule whose symbol has a price in the latest-close map
and whose direction is `">="`, the engine computes
`now_result = (price >= threshold)` — equality counts as met — and invokes
the notifier if and only if `now_result` is true and the previous result is
false (rising edge): never while remaining true, never on a true-to-false
transition, never while remaining false. -/
theorem evalRuleRow_eq_evalStep (env : Env) (m : List (String × Rat))
    (row : RuleRow) (i : Nat) (s : String) (t : Rat) (e : String) (p : Rat)
    (hid : row.id = some i) (hs : row.symbol_code = some s)
    (hdir : row.direction = some ">=") (ht : row.threshold = some t)
    (he : row.email = some e) (hp : lookupClose m s = some p) :
    evalRuleRow env m row = .ok (evalStep env i t p row.last_result) := by
  simp [evalRuleRow, hid, hs, hdir, ht, he, hp]

theorem evalStep_nowResultD (env : Env) (i : Nat) (t p : Rat)
    (lr : Option Bool) : (evalStep env i t p lr).nowResultD = decide (t ≤ p) := by
  cases lr <;> simp [evalStep, RuleOutcome.nowResultD]

theorem evalStep_isEvaluated (env : Env) (i : Nat) (t p : Rat)
    (lr : Option Bool) : (evalStep env i t p lr).isEvaluated = true := by
  cases lr <;> simp [evalStep, RuleOutcome.isEvaluated]

theorem evalStep_notified (env : Env) (i : Nat) (t p : Rat) (lr : Option Bool) :
    (evalStep env i t p lr).notified = (decide (t ≤ p) && !(lr.getD false)) := by
  cases lr with
  | none => by_cases hle : t ≤ p <;> simp [evalStep, RuleOutcome.notified, hle]
  | some b =>
    cases b <;> by_cases hle : t ≤ p <;>
      simp [evalStep, RuleOutcome.notified, hle]

theorem c1_rising_edge_notification (env : Env) (m : List (String × Rat))
    (row : RuleRow) (i : Nat) (s : String) (t : Rat) (e : String) (p : Rat)
    (hid : row.id = some i) (hs : row.symbol_code = some s)
    (hdir : row.direction = some ">=") (ht : row.threshold = some t)
    (he : row.email = some e) (hp : lookupClose m s = some p) :
    ∃ o : RuleOutcome, evalRuleRow env m row = .ok o ∧
      o.nowResultD = decide (t ≤ p) ∧
      (o.notified = true ↔ (t ≤ p ∧ row.last_result.getD false = false)) ∧
      o.isEvaluated = true := by
  refine ⟨evalStep env i t p row.last_result,
    evalRuleRow_eq_evalStep env m row i s t e p hid hs hdir ht he hp,
    evalStep_nowResultD env i t p row.last_result, ?_,
    evalStep_isEvaluated env i t p row.last_result⟩
  rw [evalStep_notified]
  cases hlr : row.last_result.getD false <;> by_cases hle : t ≤ p <;>
    simp [hle]

/-- C1 witness: concrete rule, price 25, threshold 20, previous false. -/
theorem c1_rising_edge_notification_witness :
    ∃ o : RuleOutcome,
      evalRuleRow ⟨fun _ => true, fun _ => true, 7⟩ [("VIX", 25)]
        ⟨some 1, some "VIX", some ">=", some 20, none, some "a@b.c", some true,
          some false, none⟩ = .ok o ∧
      o.nowResultD = decide ((20 : Rat) ≤ 25) ∧
      (o.notified = true ↔ ((20 : Rat) ≤ 25 ∧
        (Option.getD (some false) false = false))) ∧
      o.isEvaluated = true :=
  c1_rising_edge_notification ⟨fun _ => true, fun _ => true, 7⟩ [("VIX", 25)]
    ⟨some 1, some "VIX", some ">=", some 20, none, some "a@b.c", some true,
      some false, none⟩ 1 "VIX" 20 "a@b.c" 25 rfl rfl rfl rfl rfl (by
        simp [lookupClose])

/-- C4: a rule whose symbol has no entry in the latest-close map is skipped
with no state mutation and no notification: the row is exactly unchanged
and no RuleStore update call is made. -/
theorem c4_missing_price_no_mutation (env : Env) (m : List (String × Rat))
    (row : RuleRow) (i : Nat) (s : String) (d : String) (t : Rat) (e : String)
    (hid : row.id = some i) (hs : row.symbol_code = some s)
    (hdir : row.direction = some d) (ht : row.threshold = some t)
    (he : row.email = some e) (hp : lookupClose m s = none) :
    ∃ o : RuleOutcome, evalRuleRow env m row = .ok o ∧
      applyOutcome row o = row ∧
      o.notified = false ∧ o.updateAttempted = false := by
  refine ⟨.skippedNoPrice, ?_, rfl, rfl, rfl⟩
  simp [evalRuleRow, hid, hs, hdir, ht, he, hp]

/-- C4 witness: a rule on "NIKKEI_VI" with a map holding only "VIX". -/
theorem c4_missing_price_no_mutation_witness :
    ∃ o : RuleOutcome,
      evalRuleRow ⟨fun _ => true, fun _ => true, 7⟩ [("VIX", 25)]
        ⟨some 2, some "NIKKEI_VI", some ">=", some 30, none, some "a@b.c",
          some true, some true, some 5⟩ = .ok o ∧
      applyOutcome ⟨some 2, some "NIKKEI_VI", some ">=", some 30, none,
        some "a@b.c", some true, some true, some 5⟩ o =
        ⟨some 2, some "NIKKEI_VI", some ">=", some 30, none, some "a@b.c",
          some true, some true, some 5⟩ ∧
      o.notified = false ∧ o.updateAttempted = false :=
  c4_missing_price_no_mutation ⟨fun _ => true, fun _ => true, 7⟩ [("VIX", 25)]
    ⟨some 2, some "NIKKEI_VI", some ">=", some 30, none, some "a@b.c",
      some true, some true, some 5⟩ 2 "NIKKEI_VI" ">=" 30 "a@b.c"
    rfl rfl rfl rfl rfl (by simp [lookupClose])

/-- C6: a rule with a price available but a direction other than `">="`
is skipped with no state change: no notification, no update call,
regardless of price and threshold. -/
theorem c6_unsupported_direction_skipped (env : Env) (m : List (String × Rat))
    (row : RuleRow) (i : Nat) (s : String) (d : String) (t : Rat) (e : String)
    (p : Rat) (hid : row.id = some i) (hs : row.symbol_code = some s)
    (hdir : row.direction = some d) (hne : d ≠ ">=") (ht : row.threshold = some t)
    (he : row.email = some e) (hp : lookupClose m s = some p) :
    ∃ o : RuleOutcome, evalRuleRow env m row = .ok o ∧
      applyOutcome row o = row ∧
      o.notified = false ∧ o.updateAttempted = false := by
  refine ⟨.skippedUnsupportedDirection, ?_, rfl, rfl, rfl⟩
  simp [evalRuleRow, hid, hs, hdir, ht, he, hp, hne]

/-- C6 witness: direction "<=", price 25 far above threshold 20. -/
theorem c6_unsupported_direction_skipped_witness :
    ∃ o : RuleOutcome,
      evalRuleRow ⟨fun _ => true, fun _ => true, 7⟩ [("VIX", 25)]
        ⟨some 3, some "VIX", some "<=", some 20, none, some "a@b.c",
          some true, some false, none⟩ = .ok o ∧
      applyOutcome ⟨some 3, some "VIX", some "<=", some 20, none, some "a@b.c",
        some true, some false, none⟩ o =
        ⟨some 3, some "VIX", some "<=", some 20, none, some "a@b.c",
          some true, some false, none⟩ ∧
      o.notified = false ∧ o.updateAttempted = false :=
  c6_unsupported_direction_skipped ⟨fun _ => true, fun _ => true, 7⟩
    [("VIX", 25)]
    ⟨some 3, some "VIX", some "<=", some 20, none, some "a@b.c", some true,
      some false, none⟩ 3 "VIX" "<=" 20 "a@b.c" 25 rfl rfl rfl
    (by decide) rfl rfl (by simp [lookupClose])

/-- C7: a rule whose `last_result` is unset takes the previous result to be
false, so its very first evaluation with the condition met is a rising edge
and invokes the notifier. -/
theorem c7_unset_last_result_is_false (env : Env) (m : List (String × Rat))
    (row : RuleRow) (i : Nat) (s : String) (t : Rat) (e : String) (p : Rat)
    (hid : row.id = some i) (hs : row.symbol_code = some s)
    (hdir : row.direction = some ">=") (ht : row.threshold = some t)
    (he : row.email = some e) (hp : lookupClose m s = some p)
    (hlr : row.last_result = none) (hle : t ≤ p) :
    ∃ o : RuleOutcome, evalRuleRow env m row = .ok o ∧
      o.notified = true ∧ o.isEvaluated = true := by
  refine ⟨evalStep env i t p row.last_result,
    evalRuleRow_eq_evalStep env m row i s t e p hid hs hdir ht he hp, ?_,
    evalStep_isEvaluated env i t p row.last_result⟩
  rw [evalStep_notified, hlr]
  simp [hle]

/-- C7 witness: `last_result` absent, price 30, threshold 20 notifies. -/
theorem c7_unset_last_result_is_false_witness :
    ∃ o : RuleOutcome,
      evalRuleRow ⟨fun _ => true, fun _ => true, 7⟩ [("VIX", 30)]
        ⟨some 4, some "VIX", some ">=", some 20, none, some "a@b.c",
          some true, none, none⟩ = .ok o ∧
      o.notified = true ∧ o.isEvaluated = true :=
  c7_unset_last_result_is_false ⟨fun _ => true, fun _ => true, 7⟩
    [("VIX", 30)]
    ⟨some 4, some "VIX", some ">=", some 20, none, some "a@b.c", some true,
      none, none⟩ 4 "VIX" 20 "a@b.c" 30 rfl rfl rfl rfl rfl
    (by simp [lookupClose]) rfl (by norm_num)

/-- C3: for every rule that is evaluated (price present, direction
supported), the update call always carries `last_result = now_result`
whatever the notification outcome, and carries `last_triggered_at`
(set to the engine's current UTC reading) exactly when the send reported
success; on the persisted row (update succeeding), `last_result` becomes
`now_result` and `last_triggered_at` changes only on a successful send —
in particular a failed send leaves it exactly as it was. -/
theorem c3_persistence_semantics (env : Env) (m : List (String × Rat))
    (row : RuleRow) (i : Nat) (s : String) (t : Rat) (e : String) (p : Rat)
    (hid : row.id = some i) (hs : row.symbol_code = some s)
    (hdir : row.direction = some ">=") (ht : row.threshold = some t)
    (he : row.email = some e) (hp : lookupClose m s = some p)
    (hupd : env.updateOk i = true) :
    ∃ (sent : Option Bool) (fields : UpdateFields),
      evalRuleRow env m row =
        .ok (.evaluated (decide (t ≤ p)) sent fields true) ∧
      fields.last_result = decide (t ≤ p) ∧
      fields.last_triggered_at =
        (if sent = some true then some env.now else none) ∧
      (applyOutcome row
        (.evaluated (decide (t ≤ p)) sent fields true)).last_result =
        some (decide (t ≤ p)) ∧
      (sent = some true →
        (applyOutcome row
          (.evaluated (decide (t ≤ p)) sent fields true)).last_triggered_at =
          some env.now) ∧
      (sent ≠ some true →
        (applyOutcome row
          (.evaluated (decide (t ≤ p)) sent fields true)).last_triggered_at =
          row.last_triggered_at) := by
  refine ⟨(if decide (t ≤ p) && !(row.last_result.getD false)
      then some (env.sendResult i) else none),
    ⟨decide (t ≤ p),
      if (if decide (t ≤ p) && !(row.last_result.getD false)
          then some (env.sendResult i) else none) = some true
      then some env.now else none⟩, ?_, rfl, rfl, ?_, ?_, ?_⟩
  · rw [evalRuleRow_eq_evalStep env m row i s t e p hid hs hdir ht he hp]
    simp [evalStep, hupd]
  · simp [applyOutcome]
  · intro h
    simp only [applyOutcome, h]
    simp
  · intro h
    simp only [applyOutcome, if_neg h]

/-- C3 witness: an edge fires (price 25 ≥ threshold 20, previous false) but
the notifier reports failure; `last_result` is still written, and the
stored `last_triggered_at` (here `some 5`) is untouched. -/
theorem c3_persistence_semantics_witness :
    ∃ (sent : Option Bool) (fields : UpdateFields),
      evalRuleRow ⟨fun _ => false, fun _ => true, 7⟩ [("VIX", 25)]
        ⟨some 6, some "VIX", some ">=", some 20, none, some "a@b.c",
          some true, some false, some 5⟩ =
        .ok (.evaluated (decide ((20 : Rat) ≤ 25)) sent fields true) ∧
      fields.last_result = decide ((20 : Rat) ≤ 25) ∧
      fields.last_triggered_at =
        (if sent = some true then some (7 : Nat) else none) ∧
      (applyOutcome
        ⟨some 6, some "VIX", some ">=", some 20, none, some "a@b.c",
          some true, some false, some 5⟩
        (.evaluated (decide ((20 : Rat) ≤ 25)) sent fields true)).last_result =
        some (decide ((20 : Rat) ≤ 25)) ∧
      (sent = some true →
        (applyOutcome
          ⟨some 6, some "VIX", some ">=", some 20, none, some "a@b.c",
            some true, some false, some 5⟩
          (.evaluated (decide ((20 : Rat) ≤ 25)) sent fields
            true)).last_triggered_at = some (7 : Nat)) ∧
      (sent ≠ some true →
        (applyOutcome
          ⟨some 6, some "VIX", some ">=", some 20, none, some "a@b.c",
            some true, some false, some 5⟩
          (.evaluated (decide ((20 : Rat) ≤ 25)) sent fields
            true)).last_triggered_at = some (5 : Nat)) :=
  c3_persistence_semantics ⟨fun _ => false, fun _ => true, 7⟩ [("VIX", 25)]
    ⟨some 6, some "VIX", some ">=", some 20, none, some "a@b.c", some true,
      some false, some 5⟩ 6 "VIX" 20 "a@b.c" 25 rfl rfl rfl rfl rfl
    (by simp [lookupClose]) rfl

theorem lookupClose_singleton (s : String) (v : Rat) :
    lookupClose [(s, v)] s = some v := by
  simp [lookupClose]

theorem evalStep_eq (env : Env) (i : Nat) (t p : Rat) (lr : Option Bool) :
    evalStep env i t p lr =
      .evaluated (decide (t ≤ p))
        (if decide (t ≤ p) && !(lr.getD false) then some (env.sendResult i)
         else none)
        ⟨decide (t ≤ p),
          if (if decide (t ≤ p) && !(lr.getD false) then some (env.sendResult i)
              else none) = some true then some env.now else none⟩
        (env.updateOk i) := rfl

theorem applyOutcome_keeps_config (row : RuleRow) (o : RuleOutcome) :
    (applyOutcome row o).id = row.id ∧
    (applyOutcome row o).symbol_code = row.symbol_code ∧
    (applyOutcome row o).direction = row.direction ∧
    (applyOutcome row o).threshold = row.threshold ∧
    (applyOutcome row o).email = row.email := by
  cases o with
  | skippedNoPrice => exact ⟨rfl, rfl, rfl, rfl, rfl⟩
  | skippedUnsupportedDirection => exact ⟨rfl, rfl, rfl, rfl, rfl⟩
  | evaluated nr sent f u => cases u <;> simp [applyOutcome]

theorem applyOutcome_evaluated_last_result (row : RuleRow) (nr : Bool)
    (sent : Option Bool) (f : UpdateFields) :
    (applyOutcome row (.evaluated nr sent f true)).last_result =
      some f.last_result := by
  simp [applyOutcome]

theorem runPasses_cons (row : RuleRow) (pe : PassEnv) (rest : List PassEnv)
    (i : Nat) (s : String) (t : Rat) (e : String)
    (hid : row.id = some i) (hs : row.symbol_code = some s)
    (hdir : row.direction = some ">=") (ht : row.threshold = some t)
    (he : row.email = some e) (hpe : pe.updateOk = true) :
    ∃ row2 : RuleRow,
      runPasses row (pe :: rest) =
        ((runPasses row2 rest).1,
          (decide (t ≤ pe.price) && !(row.last_result.getD false)) ::
            (runPasses row2 rest).2) ∧
      row2.id = some i ∧ row2.symbol_code = some s ∧
      row2.direction = some ">=" ∧ row2.threshold = some t ∧
      row2.email = some e ∧
      row2.last_result = some (decide (t ≤ pe.price)) := by
  have hproj : (⟨fun _ => pe.sendOk, fun _ => pe.updateOk, pe.now⟩ :
      Env).updateOk i = true := hpe
  refine ⟨applyOutcome row
    (evalStep ⟨fun _ => pe.sendOk, fun _ => pe.updateOk, pe.now⟩ i t pe.price
      row.last_result), ?_,
    ((applyOutcome_keeps_config _ _).1).trans hid,
    ((applyOutcome_keeps_config _ _).2.1).trans hs,
    ((applyOutcome_keeps_config _ _).2.2.1).trans hdir,
    ((applyOutcome_keeps_config _ _).2.2.2.1).trans ht,
    ((applyOutcome_keeps_config _ _).2.2.2.2).trans he, ?_⟩
  · simp only [runPasses, hs]
    rw [evalRuleRow_eq_evalStep ⟨fun _ => pe.sendOk, fun _ => pe.updateOk,
      pe.now⟩ [(s, pe.price)] row i s t e pe.price hid hs hdir ht he
      (lookupClose_singleton s pe.price)]
    simp only [evalStep_notified]
  · rw [evalStep_eq, hproj, applyOutcome_evaluated_last_result]

/-- C2 counterexample: a single false-to-true edge of the condition is
notified twice when the rule update fails after a successful send.  The
rule (threshold 20, `last_result = false`) sees prices 25 then 26 — the
condition is true in both passes, so there is exactly one rising edge and
it is never observed false in between — yet with the first pass's update
failing, `runPasses` reports a notification in both passes. -/
theorem c2_counterexample_double_notification :
    (runPasses
      ⟨some 1, some "VIX", some ">=", some 20, none, some "u@x.y", some true,
        some false, none⟩
      [⟨25, true, false, 100⟩, ⟨26, true, true, 200⟩]).2 = [true, true] ∧
    ([(25 : Rat), 26].map fun p => decide ((20 : Rat) ≤ p)) = [true, true] := by
  constructor
  · decide
  · decide

/-- C2 amended: when every pass's RuleStore update succeeds (and the rule's
symbol has a price each pass, direction `">="`), the notification sequence
over any run of passes is exactly the rising-edge sequence of the condition
trace: one notification per false-to-true edge, none while the condition
stays true or false, and a new one only after a pass observed the condition
false.  (When an update fails after a successful send, the stored
`last_result` stays false and the same edge can notify again next pass.) -/
theorem c2_exactly_once_per_edge (passes : List PassEnv) (i : Nat) (s : String)
    (t : Rat) (e : String) :
    ∀ row : RuleRow, row.id = some i → row.symbol_code = some s →
      row.direction = some ">=" → row.threshold = some t →
      row.email = some e → (∀ pe ∈ passes, pe.updateOk = true) →
      (runPasses row passes).2 =
        edges (row.last_result.getD false)
          (passes.map fun pe => decide (t ≤ pe.price)) := by
  induction passes with
  | nil =>
    intro row _ _ _ _ _ _
    simp [runPasses, edges]
  | cons pe rest ih =>
    intro row hid hs hdir ht he hupd
    obtain ⟨row2, hrun, hid2, hs2, hdir2, ht2, he2, hlr2⟩ :=
      runPasses_cons row pe rest i s t e hid hs hdir ht he
        (hupd pe (List.mem_cons_self _ _))
    rw [hrun]
    simp only [List.map_cons, edges]
    rw [ih row2 hid2 hs2 hdir2 ht2 he2
      (fun q hq => hupd q (List.mem_cons_of_mem _ hq)), hlr2]
    simp [Option.getD]

/-- C2 amended witness: threshold 20, previous unset, prices
15, 25, 26, 15, 22 with all updates succeeding notify exactly on the two
rising edges (third and fifth pass). -/
theorem c2_exactly_once_per_edge_witness :
    (runPasses
      ⟨some 1, some "VIX", some ">=", some 20, none, some "u@x.y", some true,
        none, none⟩
      [⟨15, true, true, 1⟩, ⟨25, true, true, 2⟩, ⟨26, true, true, 3⟩,
        ⟨15, true, true, 4⟩, ⟨22, true, true, 5⟩]).2 =
      edges ((none : Option Bool).getD false)
        ([⟨15, true, true, 1⟩, ⟨25, true, true, 2⟩, ⟨26, true, true, 3⟩,
          ⟨15, true, true, 4⟩, ⟨22, true, true, 5⟩].map
            fun pe : PassEnv => decide ((20 : Rat) ≤ pe.price)) :=
  c2_exactly_once_per_edge
    [⟨15, true, true, 1⟩, ⟨25, true, true, 2⟩, ⟨26, true, true, 3⟩,
      ⟨15, true, true, 4⟩, ⟨22, true, true, 5⟩] 1 "VIX" 20 "u@x.y"
    ⟨some 1, some "VIX", some ">=", some 20, none, some "u@x.y", some true,
      none, none⟩ rfl rfl rfl rfl rfl (by decide)

/-- The latest-close map the ingestion loop produces when no upsert raises:
one entry per successfully fetched symbol. -/
def successMap (env : IngestEnv) (syms : List (String × String)) :
    List (String × Rat) :=
  syms.filterMap fun pr =>
    match env.fetch pr.2 with
    | .ok o => some (pr.1, o.closeV)
    | .sourceUnavailable => none

theorem ingest_loop_ok (env : IngestEnv) :
    ∀ syms : List (String × String),
      (∀ pr ∈ syms, ∀ o : Ohlc, env.fetch pr.2 = .ok o →
        env.upsertOk pr.1 = true) →
      ∃ evs : List IngestEvent,
        ingest_loop env syms = .ok (evs, successMap env syms) ∧
        ∀ pr ∈ syms, ∀ o : Ohlc, env.fetch pr.2 = .ok o →
          IngestEvent.upserted pr.1 o ∈ evs := by
  intro syms
  induction syms with
  | nil =>
    intro _
    exact ⟨[], rfl, by simp⟩
  | cons pr rest ih =>
    intro hup
    obtain ⟨evs, hok, hmem⟩ := ih (fun q hq => hup q (List.mem_cons_of_mem _ hq))
    obtain ⟨n, y⟩ := pr
    cases hf : env.fetch y with
    | sourceUnavailable =>
      refine ⟨.fetchFailed n :: evs, ?_, ?_⟩
      · simp [ingest_loop, hf, hok, successMap]
      · intro q hq o hqo
        rcases List.mem_cons.mp hq with hq | hq
        · subst hq
          rw [hf] at hqo
          exact absurd hqo (by simp)
        · exact List.mem_cons_of_mem _ (hmem q hq o hqo)
    | ok o =>
      have hupn : env.upsertOk n = true :=
        hup (n, y) (List.mem_cons_self _ _) o hf
      refine ⟨.upserted n o :: evs, ?_, ?_⟩
      · simp [ingest_loop, hf, hupn, hok, successMap]
      · intro q hq o2 hqo
        rcases List.mem_cons.mp hq with hq | hq
        · subst hq
          rw [hf] at hqo
          have : o = o2 := by injection hqo
          subst this
          exact List.mem_cons_self _ _
        · exact List.mem_cons_of_mem _ (hmem q hq o2 hqo)

theorem lookupClose_successMap_of_fail (env : IngestEnv) (a : String) :
    ∀ syms : List (String × String),
      (∀ pr ∈ syms, pr.1 = a → env.fetch pr.2 = .sourceUnavailable) →
      lookupClose (successMap env syms) a = none := by
  intro syms
  induction syms with
  | nil => intro _; rfl
  | cons pr rest ih =>
    intro hall
    cases hf : env.fetch pr.2 with
    | sourceUnavailable =>
      simp only [successMap, List.filterMap_cons, hf]
      exact ih fun q hq hqa => hall q (List.mem_cons_of_mem _ hq) hqa
    | ok o =>
      have hne : pr.1 ≠ a := by
        intro h
        rw [hall pr (List.mem_cons_self _ _) h] at hf
        exact absurd hf (by simp)
      simp only [successMap, List.filterMap_cons, hf, lookupClose, if_neg hne]
      exact ih fun q hq hqa => hall q (List.mem_cons_of_mem _ hq) hqa

theorem lookupClose_successMap_of_ok (env : IngestEnv) (b y : String)
    (ob : Ohlc) :
    ∀ syms : List (String × String), (b, y) ∈ syms →
      env.fetch y = .ok ob → (syms.map Prod.fst).Nodup →
      lookupClose (successMap env syms) b = some ob.closeV := by
  intro syms
  induction syms with
  | nil => intro h; exact absurd h (by simp)
  | cons pr rest ih =>
    intro hmem hf hnd
    rcases List.mem_cons.mp hmem with hq | hq
    · rw [← hq]
      simp [successMap, List.filterMap_cons, hf, lookupClose]
    · have hb : b ∈ rest.map Prod.fst :=
        List.mem_map.mpr ⟨(b, y), hq, rfl⟩
      have hne : pr.1 ≠ b := by
        intro h
        rw [List.map_cons, List.nodup_cons] at hnd
        exact hnd.1 (h ▸ hb)
      have htail := ih hq hf (by
        rw [List.map_cons, List.nodup_cons] at hnd
        exact hnd.2)
      cases hfp : env.fetch pr.2 with
      | sourceUnavailable =>
        simp only [successMap, List.filterMap_cons, hfp]
        simp only [successMap] at htail
        exact htail
      | ok o2 =>
        simp only [successMap, List.filterMap_cons, hfp, lookupClose,
          if_neg hne]
        simp only [successMap] at htail
        exact htail

theorem evalRuleRow_total (env : Env) (m : List (String × Rat)) (row : RuleRow)
    (hid : row.id.isSome = true) (hs : row.symbol_code.isSome = true)
    (hdir : row.direction.isSome = true) (ht : row.threshold.isSome = true)
    (he : row.email.isSome = true) :
    ∃ o : RuleOutcome, evalRuleRow env m row = .ok o := by
  obtain ⟨i, hid⟩ := Option.isSome_iff_exists.mp hid
  obtain ⟨s, hs⟩ := Option.isSome_iff_exists.mp hs
  obtain ⟨d, hdir⟩ := Option.isSome_iff_exists.mp hdir
  obtain ⟨t, ht⟩ := Option.isSome_iff_exists.mp ht
  obtain ⟨e, he⟩ := Option.isSome_iff_exists.mp he
  cases hp : lookupClose m s with
  | none =>
    exact ⟨.skippedNoPrice, by simp [evalRuleRow, hid, hs, hdir, ht, he, hp]⟩
  | some p =>
    by_cases hd : d = ">="
    · subst hd
      exact ⟨evalStep env i t p row.last_result,
        evalRuleRow_eq_evalStep env m row i s t e p hid hs hdir ht he hp⟩
    · exact ⟨.skippedUnsupportedDirection,
        by simp [evalRuleRow, hid, hs, hdir, ht, he, hp, hd]⟩

theorem evaluate_alerts_total (env : Env) (m : List (String × Rat)) :
    ∀ rows : List RuleRow,
      (∀ row ∈ rows, row.id.isSome = true ∧ row.symbol_code.isSome = true ∧
        row.direction.isSome = true ∧ row.threshold.isSome = true ∧
        row.email.isSome = true) →
      ∃ os : List RuleOutcome, evaluate_alerts env m rows = .ok os ∧
        os.length = rows.length := by
  intro rows
  induction rows with
  | nil => intro _; exact ⟨[], rfl, rfl⟩
  | cons row rest ih =>
    intro hrows
    obtain ⟨h1, h2, h3, h4, h5⟩ := hrows row (List.mem_cons_self _ _)
    obtain ⟨o, ho⟩ := evalRuleRow_total env m row h1 h2 h3 h4 h5
    obtain ⟨os, hos, hlen⟩ := ih fun q hq => hrows q (List.mem_cons_of_mem _ hq)
    exact ⟨o :: os, by simp [evaluate_alerts, ho, hos], by simp [hlen]⟩

theorem ingest_loop_error_of_upsert_fail (ienv : IngestEnv) :
    ∀ syms : List (String × String), ∀ (n y : String) (o : Ohlc),
      (n, y) ∈ syms → ienv.fetch y = .ok o → ienv.upsertOk n = false →
      ∃ err, ingest_loop ienv syms = .error err := by
  intro syms
  induction syms with
  | nil => intro n y o h; exact absurd h (by simp)
  | cons pr rest ih =>
    intro n y o hmem hf hup
    obtain ⟨np, yp⟩ := pr
    cases hfp : ienv.fetch yp with
    | sourceUnavailable =>
      rcases List.mem_cons.mp hmem with hq | hq
      · rw [show y = yp by injection hq with h1 h2] at hf
        rw [hfp] at hf
        exact absurd hf (by simp)
      · obtain ⟨err, herr⟩ := ih n y o hq hf hup
        exact ⟨err, by simp [ingest_loop, hfp, herr]⟩
    | ok o2 =>
      cases hupp : ienv.upsertOk np with
      | false => exact ⟨np, by simp [ingest_loop, hfp, hupp]⟩
      | true =>
        rcases List.mem_cons.mp hmem with hq | hq
        · rw [show n = np by injection hq with h1 h2] at hup
          rw [hupp] at hup
          exact absurd hup (by simp)
        · obtain ⟨err, herr⟩ := ih n y o hq hf hup
          exact ⟨err, by simp [ingest_loop, hfp, hupp, herr]⟩

/-- C5 counterexample: with both configured symbols fetching fine but the
upsert of "VIX" raising a StoreError, the whole run aborts
(`full_pass = .error "VIX"`): "NIKKEI_VI" is never ingested and the enabled
rule is never evaluated — the upsert StoreError is not recovered per item,
contradicting the claim that no StoreError ever aborts the remainder of the
pass. -/
theorem c5_counterexample_upsert_aborts :
    full_pass
      ⟨fun _ => .ok ⟨"2026-10-10", 20, 26, 19, 25⟩, fun n => !(n == "VIX")⟩
      ⟨fun _ => true, fun _ => true, 7⟩ INDEX_TICKERS
      [⟨some 1, some "NIKKEI_VI", some ">=", some 20, none, some "u@x.y",
        some true, some false, none⟩] = .error "VIX" := rfl

/-- C5 amended: StoreErrors of the per-rule update in the evaluation engine
are recovered per item — the loop yields an outcome for every rule whatever
the update outcomes (`env.updateOk` is unconstrained) — but a StoreError of
the price-row upsert in the ingestion loop is not caught: whenever some
symbol fetches successfully and its upsert fails, the ingestion loop
raises, aborting the remainder of the pass. -/
theorem c5_store_error_recovery (env : Env) (m : List (String × Rat))
    (rows : List RuleRow)
    (hrows : ∀ row ∈ rows, row.id.isSome = true ∧
      row.symbol_code.isSome = true ∧ row.direction.isSome = true ∧
      row.threshold.isSome = true ∧ row.email.isSome = true)
    (ienv : IngestEnv) (syms : List (String × String)) (n y : String)
    (o : Ohlc) (hmem : (n, y) ∈ syms) (hf : ienv.fetch y = .ok o)
    (hup : ienv.upsertOk n = false) :
    (∃ os : List RuleOutcome, evaluate_alerts env m rows = .ok os ∧
      os.length = rows.length) ∧
    ∃ err, ingest_loop ienv syms = .error err :=
  ⟨evaluate_alerts_total env m rows hrows,
    ingest_loop_error_of_upsert_fail ienv syms n y o hmem hf hup⟩

/-- C5 amended witness: two rules, the first one's update failing, both
still evaluated; and the configured tickers with the "VIX" upsert failing
abort ingestion. -/
theorem c5_store_error_recovery_witness :
    (∃ os : List RuleOutcome,
      evaluate_alerts ⟨fun _ => true, fun i => !(i == 1), 7⟩ [("VIX", 25)]
        [⟨some 1, some "VIX", some ">=", some 20, none, some "u@x.y",
          some true, some false, none⟩,
          ⟨some 2, some "VIX", some ">=", some 24, none, some "v@x.y",
            some true, some false, none⟩] = .ok os ∧
      os.length =
        ([⟨some 1, some "VIX", some ">=", some 20, none, some "u@x.y",
          some true, some false, none⟩,
          ⟨some 2, some "VIX", some ">=", some 24, none, some "v@x.y",
            some true, some false, none⟩] : List RuleRow).length) ∧
    ∃ err, ingest_loop
      ⟨fun _ => .ok ⟨"2026-10-10", 20, 26, 19, 25⟩, fun n => !(n == "VIX")⟩
      INDEX_TICKERS = .error err :=
  c5_store_error_recovery ⟨fun _ => true, fun i => !(i == 1), 7⟩
    [("VIX", 25)]
    [⟨some 1, some "VIX", some ">=", some 20, none, some "u@x.y", some true,
      some false, none⟩,
      ⟨some 2, some "VIX", some ">=", some 24, none, some "v@x.y", some true,
        some false, none⟩]
    (by intro row hrow; fin_cases hrow <;> exact ⟨rfl, rfl, rfl, rfl, rfl⟩)
    ⟨fun _ => .ok ⟨"2026-10-10", 20, 26, 19, 25⟩, fun n => !(n == "VIX")⟩
    INDEX_TICKERS "VIX" "^VIX" ⟨"2026-10-10", 20, 26, 19, 25⟩
    (by decide) rfl (by decide)

/-- C8: a `SourceUnavailable` on one symbol does not abort the ingestion
loop: provided every successfully fetched symbol's upsert succeeds, the
loop completes, the failed symbol gets no entry in the latest-close map,
every successfully fetched symbol is upserted and its close appears in the
map, and a rule on a successfully fetched symbol is still evaluated (not
skipped) in the same pass. -/
theorem c8_fetch_failure_isolation (ienv : IngestEnv) (aenv : Env)
    (syms : List (String × String)) (a ya b yb : String) (ob : Ohlc)
    (hnd : (syms.map Prod.fst).Nodup)
    (hups : ∀ pr ∈ syms, ∀ o : Ohlc, ienv.fetch pr.2 = .ok o →
      ienv.upsertOk pr.1 = true)
    (hamem : (a, ya) ∈ syms) (haf : ienv.fetch ya = .sourceUnavailable)
    (hbmem : (b, yb) ∈ syms) (hbf : ienv.fetch yb = .ok ob) :
    ∃ (evs : List IngestEvent) (m : List (String × Rat)),
      ingest_loop ienv syms = .ok (evs, m) ∧
      IngestEvent.upserted b ob ∈ evs ∧
      lookupClose m a = none ∧
      lookupClose m b = some ob.closeV ∧
      ∀ (row : RuleRow) (i : Nat) (t : Rat) (e : String),
        row.id = some i → row.symbol_code = some b →
        row.direction = some ">=" → row.threshold = some t →
        row.email = some e →
        evalRuleRow aenv m row =
          .ok (evalStep aenv i t ob.closeV row.last_result) := by
  obtain ⟨evs, hok, hmem⟩ := ingest_loop_ok ienv syms hups
  have hall : ∀ pr ∈ syms, pr.1 = a → ienv.fetch pr.2 = .sourceUnavailable := by
    intro pr hpr hpa
    have : pr = (a, ya) :=
      List.inj_on_of_nodup_map hnd hpr hamem (by simpa using hpa)
    rw [this]
    exact haf
  refine ⟨evs, successMap ienv syms, hok, hmem (b, yb) hbmem ob hbf,
    lookupClose_successMap_of_fail ienv a syms hall,
    lookupClose_successMap_of_ok ienv b yb ob syms hbmem hbf hnd, ?_⟩
  intro row i t e hid hs hdir ht he
  exact evalRuleRow_eq_evalStep aenv (successMap ienv syms) row i b t e
    ob.closeV hid hs hdir ht he
    (lookupClose_successMap_of_ok ienv b yb ob syms hbmem hbf hnd)

/-- C8 witness: "VIX" fetch fails, "NIKKEI_VI" fetches close 37; the pass
completes, "NIKKEI_VI" is upserted and in the map, "VIX" is absent, and a
rule on "NIKKEI_VI" is evaluated. -/
theorem c8_fetch_failure_isolation_witness :
    ∃ (evs : List IngestEvent) (m : List (String × Rat)),
      ingest_loop
        ⟨fun y => if y = "^VIX" then .sourceUnavailable
          else .ok ⟨"2026-10-10", 36, 38, 35, 37⟩, fun _ => true⟩
        INDEX_TICKERS = .ok (evs, m) ∧
      IngestEvent.upserted "NIKKEI_VI" ⟨"2026-10-10", 36, 38, 35, 37⟩ ∈ evs ∧
      lookupClose m "VIX" = none ∧
      lookupClose m "NIKKEI_VI" =
        some (Ohlc.closeV ⟨"2026-10-10", 36, 38, 35, 37⟩) ∧
      ∀ (row : RuleRow) (i : Nat) (t : Rat) (e : String),
        row.id = some i → row.symbol_code = some "NIKKEI_VI" →
        row.direction = some ">=" → row.threshold = some t →
        row.email = some e →
        evalRuleRow ⟨fun _ => true, fun _ => true, 7⟩ m row =
          .ok (evalStep ⟨fun _ => true, fun _ => true, 7⟩ i t
            (Ohlc.closeV ⟨"2026-10-10", 36, 38, 35, 37⟩) row.last_result) :=
  c8_fetch_failure_isolation
    ⟨fun y => if y = "^VIX" then .sourceUnavailable
      else .ok ⟨"2026-10-10", 36, 38, 35, 37⟩, fun _ => true⟩
    ⟨fun _ => true, fun _ => true, 7⟩ INDEX_TICKERS
    "VIX" "^VIX" "NIKKEI_VI" "^NKVI.OS" ⟨"2026-10-10", 36, 38, 35, 37⟩
    (by decide) (fun pr _ o _ => rfl) (by decide) (by simp)
    (by decide) (by simp)

/-- C9: with `SMTP_USER` or `SMTP_PASS` unset, `send_alert_email` returns
`False` without attempting any transport (`FROM_EMAIL` cannot rescue a
missing user); plugged into the engine as the notifier, a rule whose edge
fires still gets `last_result` written, but `last_triggered_at` is left
exactly unchanged. -/
theorem c9_missing_smtp_credentials (senv : SmtpEnv) (dest subj body : String)
    (hm : senv.smtpUser = none ∨ senv.smtpPass = none)
    (m : List (String × Rat)) (row : RuleRow) (i : Nat) (s : String) (t : Rat)
    (e : String) (p : Rat) (upd : Nat → Bool) (clock : Nat)
    (hid : row.id = some i) (hs : row.symbol_code = some s)
    (hdir : row.direction = some ">=") (ht : row.threshold = some t)
    (he : row.email = some e) (hp : lookupClose m s = some p)
    (hupd : upd i = true) :
    send_alert_email senv dest subj body = (false, false) ∧
    ∃ o : RuleOutcome,
      evalRuleRow ⟨fun _ => (send_alert_email senv dest subj body).1, upd,
        clock⟩ m row = .ok o ∧
      (applyOutcome row o).last_result = some (decide (t ≤ p)) ∧
      (applyOutcome row o).last_triggered_at = row.last_triggered_at := by
  have hsend : send_alert_email senv dest subj body = (false, false) := by
    rcases hm with h | h <;> simp [send_alert_email, h, falsyStr, orStr]
  refine ⟨hsend, evalStep ⟨fun _ => (send_alert_email senv dest subj body).1,
    upd, clock⟩ i t p row.last_result,
    evalRuleRow_eq_evalStep _ m row i s t e p hid hs hdir ht he hp, ?_, ?_⟩
  · rw [evalStep_eq]
    have h1 : (⟨fun _ => (send_alert_email senv dest subj body).1, upd,
        clock⟩ : Env).updateOk i = true := hupd
    rw [h1, applyOutcome_evaluated_last_result]
  · rw [evalStep_eq]
    have h1 : (⟨fun _ => (send_alert_email senv dest subj body).1, upd,
        clock⟩ : Env).updateOk i = true := hupd
    have h2 : (⟨fun _ => (send_alert_email senv dest subj body).1, upd,
        clock⟩ : Env).sendResult i = false := by
      show (send_alert_email senv dest subj body).1 = false
      rw [hsend]
    rw [h1, h2]
    by_cases hc : (decide (t ≤ p) && !(row.last_result.getD false)) = true <;>
      simp [applyOutcome, hc]

/-- C9 witness: `SMTP_USER` unset while `FROM_EMAIL` is set; a rising edge
(price 30, threshold 20, previous false) still updates `last_result` and
leaves the stored `last_triggered_at` (`none`) unchanged. -/
theorem c9_missing_smtp_credentials_witness :
    send_alert_email ⟨none, some "pw", some "from@x.y", true⟩ "u@x.y" "sub"
      "body" = (false, false) ∧
    ∃ o : RuleOutcome,
      evalRuleRow ⟨fun _ => (send_alert_email ⟨none, some "pw", some "from@x.y",
        true⟩ "u@x.y" "sub" "body").1, fun _ => true, 7⟩ [("VIX", 30)]
        ⟨some 9, some "VIX", some ">=", some 20, none, some "u@x.y", some true,
          some false, none⟩ = .ok o ∧
      (applyOutcome ⟨some 9, some "VIX", some ">=", some 20, none,
        some "u@x.y", some true, some false, none⟩ o).last_result =
        some (decide ((20 : Rat) ≤ 30)) ∧
      (applyOutcome ⟨some 9, some "VIX", some ">=", some 20, none,
        some "u@x.y", some true, some false, none⟩ o).last_triggered_at =
        RuleRow.last_triggered_at ⟨some 9, some "VIX", some ">=", some 20,
          none, some "u@x.y", some true, some false, none⟩ :=
  c9_missing_smtp_credentials ⟨none, some "pw", some "from@x.y", true⟩
    "u@x.y" "sub" "body" (Or.inl rfl) [("VIX", 30)]
    ⟨some 9, some "VIX", some ">=", some 20, none, some "u@x.y", some true,
      some false, none⟩ 9 "VIX" 20 "u@x.y" 30 (fun _ => true) 7
    rfl rfl rfl rfl rfl (by simp [lookupClose]) rfl

/-- C10: the evaluation loop body reads `id`, `symbol_code`, `direction`,
`threshold` and `email` unconditionally, before the price-lookup skip
check; an enabled rule missing any of these keys raises a KeyError that is
not caught in the loop, aborting the pass — whatever the price map and
whatever rules remain after it (none of them gets evaluated). -/
theorem c10_missing_key_aborts_pass (env : Env) (row : RuleRow)
    (hmiss : row.id = none ∨ row.symbol_code = none ∨ row.direction = none ∨
      row.threshold = none ∨ row.email = none) :
    ∃ err : String, ∀ (m : List (String × Rat)) (rest : List RuleRow),
      evaluate_alerts env m (row :: rest) = .error err := by
  have hrow : ∃ err : String, ∀ m : List (String × Rat),
      evalRuleRow env m row = .error err := by
    cases hid : row.id with
    | none => exact ⟨"KeyError: id", fun m => by simp [evalRuleRow, hid]⟩
    | some i =>
      cases hs : row.symbol_code with
      | none =>
        exact ⟨"KeyError: symbol_code", fun m => by simp [evalRuleRow, hid, hs]⟩
      | some s =>
        cases hdir : row.direction with
        | none =>
          exact ⟨"KeyError: direction",
            fun m => by simp [evalRuleRow, hid, hs, hdir]⟩
        | some d =>
          cases ht : row.threshold with
          | none =>
            exact ⟨"KeyError: threshold",
              fun m => by simp [evalRuleRow, hid, hs, hdir, ht]⟩
          | some t =>
            cases he : row.email with
            | none =>
              exact ⟨"KeyError: email",
                fun m => by simp [evalRuleRow, hid, hs, hdir, ht, he]⟩
            | some e =>
              rw [hid, hs, hdir, ht, he] at hmiss
              simp at hmiss
  obtain ⟨err, herr⟩ := hrow
  exact ⟨err, fun m rest => by simp [evaluate_alerts, herr m]⟩

/-- C10 witness: an enabled rule missing only `email`, with a map that has
no price for its symbol (so the skip path would otherwise apply), still
aborts the pass together with a further well-formed rule behind it. -/
theorem c10_missing_key_aborts_pass_witness :
    ∃ err : String, ∀ (m : List (String × Rat)) (rest : List RuleRow),
      evaluate_alerts ⟨fun _ => true, fun _ => true, 7⟩ m
        (⟨some 10, some "NO_SUCH", some ">=", some 20, none, none, some true,
          some false, none⟩ :: rest) = .error err :=
  c10_missing_key_aborts_pass ⟨fun _ => true, fun _ => true, 7⟩
    ⟨some 10, some "NO_SUCH", some ">=", some 20, none, none, some true,
      some false, none⟩
    (Or.inr (Or.inr (Or.inr (Or.inr rfl))))

end VolWatcher
